import Mathlib

/-!
Verification of the core of `cargo-forkdep` (src/main.rs), a cargo subcommand
that redirects a dependency to a local fork via the manifest's `[patch]` table.

The development shallowly embeds the two core functions:

* `insert_patch` (src/main.rs:79-102): the `toml_edit`-based manifest patcher.
  TOML documents are modelled by the `Item`/`Value` tree below, which mirrors
  the `toml_edit` node distinction the code branches on: `Item::Table`
  (a standard table, carrying its `implicit` rendering flag, mutated by
  `set_implicit`) versus `Item::Value` (an inline value, either a scalar or an
  `InlineTable`).  Tables and inline tables are ordered association lists,
  matching the order-preserving maps of `toml_edit`; `Table::entry(k).or_insert_with`
  appends at the end when the key is absent, which `setKey` reproduces.
  The Rust function mutates in place and can fail midway, so the embedding
  returns the (possibly partially mutated) document together with an optional
  error message, exactly following the source's sequence of
  `entry / or_insert_with / as_table_mut / set_implicit / as_inline_table_mut`
  steps.  Key decor and whitespace metadata carried by `toml_edit` are not
  modelled; `path.to_str()` (OS-string conversion) is modelled as total since
  paths are embedded as `String`.

* `get_repo` (src/main.rs:109-135): the lock-graph repository resolver.
  Workspace members and lock-graph edges become lists of `PackageId`; the
  cargo collaborators (`load_pkg_lockfile`, `generate_lockfile`, source
  loading / `PackageSet::get_one`) are oracle parameters: `lock` gives the
  direct dependency edges of a member, and `repositoryOf` gives the
  `manifest().metadata().repository` field of a materialized package.

* `main` (src/main.rs:42-57): the orchestration order
  `get_repo → read_manifest → make_local_copy → insert_patch → fs::write`,
  with the collaborators abstracted as `Except`-valued oracles, used to state
  the no-partial-success property of the on-disk manifest.
-/

/-- A `toml_edit` `Value`: a scalar (all scalars collapsed to a string payload,
which is all the code distinguishes) or an inline table of key/value pairs. -/
inductive Value where
  | str : String → Value
  | inlineTable : List (String × Value) → Value

/-- A `toml_edit` `Item`: an inline value, or a standard table.  The `Bool`
is the table's `implicit` flag (`Table::new()` starts at `false`;
`set_implicit(true)` sets it, making an empty table render no header). -/
inductive Item where
  | value : Value → Item
  | table : Bool → List (String × Item) → Item

/-- A manifest `Document` is its root table's entries. -/
abbrev Doc := List (String × Item)

/-- First value bound to key `k` in an ordered association list
(`toml_edit` maps have unique keys; lookup mirrors `Table::entry` /
`get`). -/
def getKey {α : Type} (l : List (String × α)) (k : String) : Option α :=
  match l with
  | [] => none
  | (k', v) :: rest => if k' = k then some v else getKey rest k

/-- Bind key `k` to `v`: overwrite in place if present, append at the end if
absent — the net effect of `entry(k).or_insert_with(..)` followed by an
overwrite through the returned mutable reference. -/
def setKey {α : Type} (l : List (String × α)) (k : String) (v : α) :
    List (String × α) :=
  match l with
  | [] => [(k, v)]
  | (k', v') :: rest =>
      if k' = k then (k, v) :: rest else (k', v') :: setKey rest k v

/-- The fully successful write-back of `insert_patch`: starting from the four
association lists the traversal found (patch-table entries `pents`, the
`crates-io` sub-table flag `ci` and entries `cents`, the dependency's inline
table entries `dents`), rebuild the document with
`patch.crates-io.<dep>.path = <path>`.  The patch table's implicit flag is
`true` (`patch.set_implicit(true)`, line 86); the `crates-io` flag `ci` is
whatever it already was (`false` for a fresh `Table::new()`), since the code
never calls `set_implicit` on it. -/
def insertPatchResult (manifest : Doc) (pents : List (String × Item))
    (ci : Bool) (cents : List (String × Item)) (dents : List (String × Value))
    (path dep : String) : Doc :=
  setKey manifest "patch" (Item.table true
    (setKey pents "crates-io" (Item.table ci
      (setKey cents dep (Item.value (Value.inlineTable
        (setKey dents "path" (Value.str path))))))))

/-- Stage 3 of `insert_patch` (src/main.rs:92-101): inside the `crates-io`
sub-table, `entry(&dep).or_insert_with(InlineTable::new)`, require an inline
table (`as_inline_table_mut`), then set its `path` entry to the path string.
On failure the document still carries the earlier mutations (patch table
created/marked implicit, `crates-io` created). -/
def insertPatchDep (manifest : Doc) (pents : List (String × Item)) (ci : Bool)
    (cents : List (String × Item)) (path dep : String) : Doc × Option String :=
  match getKey cents dep with
  | none =>
      (insertPatchResult manifest pents ci cents [] path dep, none)
  | some (Item.value (Value.inlineTable dents)) =>
      (insertPatchResult manifest pents ci cents dents path dep, none)
  | some _ =>
      (setKey manifest "patch" (Item.table true
        (setKey pents "crates-io" (Item.table ci cents))),
       some "dependency is not an InlineTable")

/-- Stage 2 of `insert_patch` (src/main.rs:87-91): inside the patch table,
`entry("crates-io").or_insert_with(Table::new)` and require a standard table
(`as_table_mut`).  A fresh sub-table starts with implicit flag `false` and the
code never sets it. -/
def insertPatchCratesIo (manifest : Doc) (pents : List (String × Item))
    (path dep : String) : Doc × Option String :=
  match getKey pents "crates-io" with
  | none => insertPatchDep manifest pents false [] path dep
  | some (Item.table ci cents) => insertPatchDep manifest pents ci cents path dep
  | some (Item.value _) =>
      (setKey manifest "patch" (Item.table true pents),
       some "crates-io is not a Table")

/-- `insert_patch` (src/main.rs:79-102).  Stage 1:
`manifest.as_table_mut().entry("patch").or_insert_with(Table::new)`, require a
standard table, `set_implicit(true)`, then descend.  Returns the document as
mutated so far together with the error, when one occurred: when `patch`
already holds a non-table the lookup fails before any mutation, so the
document comes back unchanged. -/
def insert_patch (manifest : Doc) (path dep : String) : Doc × Option String :=
  match getKey manifest "patch" with
  | none => insertPatchCratesIo manifest [] path dep
  | some (Item.table _ pents) => insertPatchCratesIo manifest pents path dep
  | some (Item.value _) => (manifest, some "patch is not a Table")

/-- One navigation step into an item: a standard table and an inline table
both expose their entries by key (inline-table values wrapped back as items);
scalars expose nothing. -/
def subItem : Item → String → Option Item
  | Item.table _ ents, k => getKey ents k
  | Item.value (Value.inlineTable ents), k => (getKey ents k).map Item.value
  | Item.value (Value.str _), _ => none

/-- Navigate an item along a key path. -/
def itemGet (it : Item) : List String → Option Item
  | [] => some it
  | k :: ks =>
      match subItem it k with
      | none => none
      | some it2 => itemGet it2 ks

/-- Navigate a document along a key path (observer used to state the
properties; not part of the source code). -/
def docGet (doc : Doc) (ks : List String) : Option Item :=
  itemGet (Item.table true doc) ks

/-- A cargo `PackageId`: name, resolved version, source.  Equality is by the
whole identifier, not by name alone. -/
structure PackageId where
  name : String
  version : String
  sourceId : String
deriving DecidableEq

/-- The inner loop of `get_repo` (src/main.rs:120-132): walk one member's
matching direct edges in edge-iteration order; for each, materialize the
package (`repositoryOf` models `PackageSet::get_one(..).manifest().metadata()
.repository`, treated as an infallible oracle) and return the first edge whose
metadata carries a repository URL. -/
def findRepoInDeps (repositoryOf : PackageId → Option String) :
    List PackageId → Option String
  | [] => none
  | d :: rest =>
      match repositoryOf d with
      | some r => some r
      | none => findRepoInDeps repositoryOf rest

/-- The outer loop of `get_repo` (src/main.rs:118-133): walk workspace members
in workspace-member order; for each, filter its direct lock-graph edges
(`lockfile.deps(package_id)`, modelled by `lock`) down to those whose target
name equals the requested dependency, and search them. -/
def findRepoInMembers (lock : PackageId → List PackageId)
    (repositoryOf : PackageId → Option String) (dependency : String) :
    List PackageId → Option String
  | [] => none
  | m :: rest =>
      match findRepoInDeps repositoryOf
          ((lock m).filter (fun d => d.name == dependency)) with
      | some r => some r
      | none => findRepoInMembers lock repositoryOf dependency rest

/-- The search loop of `get_repo` (src/main.rs:109-135) once the lockfile is available:
return the first repository URL found, else fail with the message naming the
dependency (line 134). -/
def get_repo (lock : PackageId → List PackageId)
    (repositoryOf : PackageId → Option String) (members : List PackageId)
    (dependency : String) : Except String String :=
  match findRepoInMembers lock repositoryOf dependency members with
  | some r => Except.ok r
  | none => Except.error ("Could not find use of dependency " ++ dependency)

/-- Specification-side observer: all repository URLs of matching direct edges,
flattened in workspace-member order then edge-iteration order (`none`
metadata dropped).  Stated from the spec's wording to compare against
`get_repo`; not part of the source code. -/
def orderedRepoCandidates (lock : PackageId → List PackageId)
    (repositoryOf : PackageId → Option String) (members : List PackageId)
    (dependency : String) : List String :=
  members.flatMap (fun m =>
    ((lock m).filter (fun d => d.name == dependency)).filterMap repositoryOf)

/-- The cargo lockfile collaborators as seen by `get_repo`
(src/main.rs:111-117), modelled as oracles: the outcome of the first
`load_pkg_lockfile` call, of `generate_lockfile`, and of the
`load_pkg_lockfile` call made after generation persisted a lockfile.  `L` is
the type of resolved lock states. -/
structure LockfileStore (L : Type) where
  firstLoad : Except String (Option L)
  genResult : Except String Unit
  secondLoad : Except String (Option L)

/-- The lockfile acquisition in `get_repo` (src/main.rs:111-117): use the
loaded lock state if one exists; otherwise generate one (persisting it) and
load again, failing if still absent.  Errors from either collaborator
propagate (`?`). -/
def load_or_generate_lockfile {L : Type} (s : LockfileStore L) :
    Except String L :=
  match s.firstLoad with
  | Except.error e => Except.error e
  | Except.ok (some l) => Except.ok l
  | Except.ok none =>
      match s.genResult with
      | Except.error e => Except.error e
      | Except.ok _ =>
          match s.secondLoad with
          | Except.error e => Except.error e
          | Except.ok (some l) => Except.ok l
          | Except.ok none => Except.error "Failed to generate lockfile"

/-- The pipeline of `main` (src/main.rs:42-57) acting on the manifest file's
content `disk`, with the collaborators as oracles: `repoResult` is the
outcome of `get_repo`, `parse` of `read_manifest` (the `toml_edit` parser),
`clone` of `make_local_copy` (fork + submodule clone, yielding the local
path).  Each `?` aborts the run; only the final step writes the manifest
back (`fs::write(manifest_path, manifest.to_string())`, with `serialize`
standing for `Document::to_string`).  Returns the manifest file's final
content and the error that terminated the run, if any. -/
def main_run (parse : String → Except String Doc) (serialize : Doc → String)
    (repoResult : Except String String)
    (clone : String → Except String String) (dep : String) (disk : String) :
    String × Option String :=
  match repoResult with
  | Except.error e => (disk, some e)
  | Except.ok repo =>
      match parse disk with
      | Except.error e => (disk, some e)
      | Except.ok manifest =>
          match clone repo with
          | Except.error e => (disk, some e)
          | Except.ok depPath =>
              match insert_patch manifest depPath dep with
              | (_, some e) => (disk, some e)
              | (patched, none) => (serialize patched, none)

-- Characterization of the successful runs of `insert_patch`: the three
-- traversal stages each either find nothing (and create), or find a node of
-- the right shape.  The following observers extract what each stage works on.

/-- The patch-table entries stage 1 hands to stage 2: `[]` when `patch` is
absent (a fresh `Table::new()`), the existing entries when it is a standard
table, and `none` (failure) when it holds an inline value. -/
def patchEnts (doc : Doc) : Option (List (String × Item)) :=
  match getKey doc "patch" with
  | none => some []
  | some (Item.table _ es) => some es
  | some (Item.value _) => none

/-- The `crates-io` implicit flag and entries stage 2 hands to stage 3:
`(false, [])` when absent, the existing flag and entries when a standard
table, `none` (failure) when an inline value. -/
def ciState (pents : List (String × Item)) :
    Option (Bool × List (String × Item)) :=
  match getKey pents "crates-io" with
  | none => some (false, [])
  | some (Item.table ci es) => some (ci, es)
  | some (Item.value _) => none

/-- The dependency entry's inline-table entries stage 3 updates: `[]` when
the entry is absent (a fresh `InlineTable::new()`), the existing entries when
it is an inline table, `none` (failure) for a standard table or scalar. -/
def depEnts (cents : List (String × Item)) (dep : String) :
    Option (List (String × Value)) :=
  match getKey cents dep with
  | none => some []
  | some (Item.value (Value.inlineTable ds)) => some ds
  | some (Item.value (Value.str _)) => none
  | some (Item.table _ _) => none

/-- The `implicit` rendering flag of a standard table, when the looked-up
item is one. -/
def tableFlag : Option Item → Option Bool
  | some (Item.table b _) => some b
  | some (Item.value _) => none
  | none => none

-- Basic association-list lemmas.

theorem getKey_setKey_self {α : Type} (l : List (String × α)) (k : String)
    (v : α) : getKey (setKey l k v) k = some v := by
  induction l with
  | nil => simp [getKey, setKey]
  | cons hd tl ih =>
      obtain ⟨k', v'⟩ := hd
      by_cases h : k' = k
      · simp [getKey, setKey, h]
      · simp [getKey, setKey, h, ih]

theorem getKey_setKey_ne {α : Type} (l : List (String × α)) (k k' : String)
    (v : α) (h : k ≠ k') : getKey (setKey l k v) k' = getKey l k' := by
  induction l with
  | nil => simp [getKey, setKey, h]
  | cons hd tl ih =>
      obtain ⟨k₀, v₀⟩ := hd
      by_cases h₀ : k₀ = k
      · subst h₀
        simp [getKey, setKey, h]
      · simp only [setKey, getKey, if_neg h₀]
        by_cases h₁ : k₀ = k'
        · simp [getKey, h₁]
        · simp [getKey, h₁, ih]

theorem setKey_setKey {α : Type} (l : List (String × α)) (k : String)
    (v v' : α) : setKey (setKey l k v) k v' = setKey l k v' := by
  induction l with
  | nil => simp [setKey]
  | cons hd tl ih =>
      obtain ⟨k₀, v₀⟩ := hd
      by_cases h : k₀ = k
      · simp [setKey, h]
      · simp [setKey, h, ih]

theorem insertPatchDep_eq (manifest : Doc) (pents : List (String × Item))
    (ci : Bool) (cents : List (String × Item)) (path dep : String) :
    insertPatchDep manifest pents ci cents path dep =
      match depEnts cents dep with
      | none =>
          (setKey manifest "patch" (Item.table true
            (setKey pents "crates-io" (Item.table ci cents))),
           some "dependency is not an InlineTable")
      | some dents =>
          (insertPatchResult manifest pents ci cents dents path dep, none) := by
  unfold insertPatchDep depEnts
  cases hd : getKey cents dep with
  | none => rfl
  | some it =>
      cases it with
      | table b es => rfl
      | value v =>
          cases v with
          | str s => rfl
          | inlineTable ds => rfl

theorem insertPatchCratesIo_eq (manifest : Doc) (pents : List (String × Item))
    (path dep : String) :
    insertPatchCratesIo manifest pents path dep =
      match ciState pents with
      | none =>
          (setKey manifest "patch" (Item.table true pents),
           some "crates-io is not a Table")
      | some (ci, cents) => insertPatchDep manifest pents ci cents path dep := by
  unfold insertPatchCratesIo ciState
  cases hc : getKey pents "crates-io" with
  | none => rfl
  | some it =>
      cases it with
      | table ci es => rfl
      | value v => rfl

theorem insert_patch_eq (doc : Doc) (path dep : String) :
    insert_patch doc path dep =
      match patchEnts doc with
      | none => (doc, some "patch is not a Table")
      | some pents => insertPatchCratesIo doc pents path dep := by
  unfold insert_patch patchEnts
  cases hp : getKey doc "patch" with
  | none => rfl
  | some it =>
      cases it with
      | table b es => rfl
      | value v => rfl

theorem insert_patch_eq_of (doc : Doc) (path dep : String)
    (pents : List (String × Item)) (ci : Bool)
    (cents : List (String × Item)) (dents : List (String × Value))
    (h1 : patchEnts doc = some pents) (h2 : ciState pents = some (ci, cents))
    (h3 : depEnts cents dep = some dents) :
    insert_patch doc path dep =
      (insertPatchResult doc pents ci cents dents path dep, none) := by
  rw [insert_patch_eq, h1]
  dsimp only
  rw [insertPatchCratesIo_eq, h2]
  dsimp only
  rw [insertPatchDep_eq, h3]

theorem insert_patch_success_shape (doc : Doc) (path dep : String)
    (doc' : Doc) (h : insert_patch doc path dep = (doc', none)) :
    ∃ pents ci cents dents,
      patchEnts doc = some pents ∧ ciState pents = some (ci, cents) ∧
      depEnts cents dep = some dents ∧
      doc' = insertPatchResult doc pents ci cents dents path dep := by
  rw [insert_patch_eq] at h
  cases h1 : patchEnts doc with
  | none => rw [h1] at h; simp at h
  | some pents =>
      rw [h1] at h
      dsimp only at h
      rw [insertPatchCratesIo_eq] at h
      cases h2 : ciState pents with
      | none => rw [h2] at h; simp at h
      | some st =>
          obtain ⟨ci, cents⟩ := st
          rw [h2] at h
          dsimp only at h
          rw [insertPatchDep_eq] at h
          cases h3 : depEnts cents dep with
          | none => rw [h3] at h; simp at h
          | some dents =>
              rw [h3] at h
              exact ⟨pents, ci, cents, dents, rfl, h2, h3,
                (congrArg Prod.fst h).symm⟩

-- Resolver lemmas: the two loops of `get_repo` compute the head of the
-- ordered candidate list.

theorem findRepoInDeps_eq_head (ro : PackageId → Option String)
    (l : List PackageId) : findRepoInDeps ro l = (l.filterMap ro).head? := by
  induction l with
  | nil => rfl
  | cons d rest ih =>
      cases hd : ro d with
      | none => simp [findRepoInDeps, hd, List.filterMap_cons, ih]
      | some r => simp [findRepoInDeps, hd, List.filterMap_cons]

theorem findRepoInMembers_eq_head (lock : PackageId → List PackageId)
    (ro : PackageId → Option String) (dependency : String)
    (members : List PackageId) :
    findRepoInMembers lock ro dependency members =
      (orderedRepoCandidates lock ro members dependency).head? := by
  induction members with
  | nil => rfl
  | cons m rest ih =>
      have hsplit : orderedRepoCandidates lock ro (m :: rest) dependency =
          ((lock m).filter (fun d => d.name == dependency)).filterMap ro ++
            orderedRepoCandidates lock ro rest dependency := by
        simp [orderedRepoCandidates]
      unfold findRepoInMembers
      rw [findRepoInDeps_eq_head, hsplit]
      cases hA : ((lock m).filter (fun d => d.name == dependency)).filterMap ro with
      | nil => simpa using ih
      | cons a as => simp

theorem filterMatchCandidates_nil (ro : PackageId → Option String)
    (dep : String) : ∀ l : List PackageId,
    (∀ d ∈ l, d.name = dep → ro d = none) →
    (l.filter (fun d => d.name == dep)).filterMap ro = [] := by
  intro l
  induction l with
  | nil => intro _; rfl
  | cons d tl ih =>
      intro h
      by_cases hname : d.name = dep
      · have hb : (d.name == dep) = true := beq_iff_eq.mpr hname
        rw [List.filter_cons]
        simp only [hb, if_true, List.filterMap_cons,
          h d (List.mem_cons_self d tl) hname]
        exact ih (fun d2 hd2 => h d2 (List.mem_cons_of_mem _ hd2))
      · have hb : (d.name == dep) = false := by
          simpa using hname
        rw [List.filter_cons]
        simp only [hb, if_false, Bool.false_eq_true]
        exact ih (fun d2 hd2 => h d2 (List.mem_cons_of_mem _ hd2))

theorem orderedRepoCandidates_eq_nil (lock : PackageId → List PackageId)
    (ro : PackageId → Option String) (dep : String) :
    ∀ members : List PackageId,
    (∀ m ∈ members, ∀ d ∈ lock m, d.name = dep → ro d = none) →
    orderedRepoCandidates lock ro members dep = [] := by
  intro members
  induction members with
  | nil => intro _; rfl
  | cons m rest ih =>
      intro h
      unfold orderedRepoCandidates
      rw [List.flatMap_cons]
      have h1 : ((lock m).filter (fun d => d.name == dep)).filterMap ro = [] :=
        filterMatchCandidates_nil ro dep (lock m)
          (fun d hd => h m (List.mem_cons_self m rest) d hd)
      have h2 : orderedRepoCandidates lock ro rest dep = [] :=
        ih (fun m2 hm2 => h m2 (List.mem_cons_of_mem _ hm2))
      unfold orderedRepoCandidates at h2
      rw [h1, h2]
      rfl

/-- C2: for every lock graph and workspace in which some member has a direct
edge of the requested name whose materialized package declares a repository
URL, `get_repo` returns the first such URL, iterating workspace members in
order and direct edges in order within a member (first match wins, no
reconciliation).  A "declared" repository URL is a populated
`metadata.repository` field (`Option::Some`), which is the test the code
performs. -/
theorem C2_resolve_first_match (lock : PackageId → List PackageId)
    (ro : PackageId → Option String) (members : List PackageId)
    (dep url : String)
    (h : (orderedRepoCandidates lock ro members dep).head? = some url) :
    get_repo lock ro members dep = Except.ok url := by
  unfold get_repo
  rw [findRepoInMembers_eq_head, h]

/-- C2 witness: one workspace member with a direct edge to `libfoo 1.2.0`
whose metadata names `https://github.com/acme/libfoo`, plus a second matching
edge with a different URL that is not returned (first match wins). -/
theorem C2_resolve_first_match_witness :
    get_repo
      (fun p => if p.name = "ws-member"
        then [⟨"libfoo", "1.2.0", "registry+https://github.com/rust-lang/crates.io-index"⟩,
              ⟨"libfoo", "2.0.0", "registry+https://github.com/rust-lang/crates.io-index"⟩]
        else [])
      (fun p => if p.version = "1.2.0" then some "https://github.com/acme/libfoo"
        else some "https://github.com/other/libfoo")
      [⟨"ws-member", "0.1.0", "path+file:///ws"⟩] "libfoo" =
      Except.ok "https://github.com/acme/libfoo" :=
  C2_resolve_first_match _ _ _ _ _ rfl

/-- C3: when no workspace member has a direct lock-graph edge to a package of
the requested name, or every matched package's metadata lacks a repository
URL, `get_repo` fails with an error naming the dependency (and hence returns
no URL). -/
theorem C3_resolve_not_found (lock : PackageId → List PackageId)
    (ro : PackageId → Option String) (members : List PackageId) (dep : String)
    (h : ∀ m ∈ members, ∀ d ∈ lock m, d.name = dep → ro d = none) :
    get_repo lock ro members dep =
      Except.error ("Could not find use of dependency " ++ dep) := by
  unfold get_repo
  rw [findRepoInMembers_eq_head,
    orderedRepoCandidates_eq_nil lock ro dep members h]
  rfl

/-- C3 witness: a member whose only matching direct edge has no repository
metadata; the run fails naming `nonexistent`. -/
theorem C3_resolve_not_found_witness :
    get_repo (fun _ => [⟨"nonexistent", "1.0.0", "registry"⟩])
      (fun _ => none) [⟨"ws-member", "0.1.0", "path+file:///ws"⟩]
      "nonexistent" =
      Except.error ("Could not find use of dependency " ++ "nonexistent") :=
  C3_resolve_not_found _ _ _ _ (fun _ _ _ _ _ => rfl)

/-- C6: when the top-level `patch` key already holds a value that is not a
table (e.g. a scalar), `insert_patch` fails with an error and returns the
document unmutated: `or_insert_with` finds the key occupied and inserts
nothing, and `as_table_mut` fails before any write. -/
theorem C6_scalar_patch_rejected (doc : Doc) (path dep : String) (v : Value)
    (h : getKey doc "patch" = some (Item.value v)) :
    insert_patch doc path dep = (doc, some "patch is not a Table") := by
  unfold insert_patch
  rw [h]

/-- C6 witness: a manifest whose `patch` key holds the scalar `"1"`. -/
theorem C6_scalar_patch_rejected_witness :
    insert_patch [("patch", Item.value (Value.str "1"))] "patches/libfoo"
      "libfoo" =
      ([("patch", Item.value (Value.str "1"))],
        some "patch is not a Table") :=
  C6_scalar_patch_rejected _ _ _ _ rfl

/-- C7: if any stage of the `main` pipeline fails (repository resolution,
manifest parse, clone/fork, or patch insertion), the manifest file's content
is unchanged; `fs::write` runs only after every fallible step has
succeeded, so there is no partial-success state on disk. -/
theorem C7_no_partial_success (parse : String → Except String Doc)
    (serialize : Doc → String) (repoResult : Except String String)
    (clone : String → Except String String) (dep disk : String) (e : String)
    (h : (main_run parse serialize repoResult clone dep disk).2 = some e) :
    (main_run parse serialize repoResult clone dep disk).1 = disk := by
  unfold main_run at h ⊢
  cases repoResult with
  | error e2 => rfl
  | ok repo =>
      cases hp : parse disk with
      | error e2 => simp [hp]
      | ok manifest =>
          cases hc : clone repo with
          | error e2 => simp [hp, hc]
          | ok depPath =>
              cases hi : insert_patch manifest depPath dep with
              | mk d2 oerr =>
                  cases oerr with
                  | some e2 => simp [hp, hc, hi]
                  | none => simp [hp, hc, hi] at h

/-- C7 witness: dependency `nonexistent` fails resolution; the on-disk
manifest text is returned unchanged. -/
theorem C7_no_partial_success_witness :
    (main_run (fun _ => Except.ok []) (fun _ => "")
      (Except.error ("Could not find use of dependency " ++ "nonexistent"))
      (fun r => Except.ok r) "nonexistent" "[package]").1 = "[package]" :=
  C7_no_partial_success _ _ _ _ _ _
    ("Could not find use of dependency " ++ "nonexistent") rfl

/-- C9: the lockfile acquisition in `get_repo` returns the existing resolved
lock state directly when one exists; when none exists it runs
`generate_lockfile` (which persists a lockfile) and loads the freshly written
state; and it fails when generation errors or when no lock state can be
loaded afterwards.  The cargo collaborators are modelled as the
`LockfileStore` oracles. -/
theorem C9_lockfile_load_spec {L : Type} (s : LockfileStore L) :
    (∀ l, s.firstLoad = Except.ok (some l) →
      load_or_generate_lockfile s = Except.ok l) ∧
    (∀ g, s.firstLoad = Except.ok none → s.genResult = Except.ok () →
      s.secondLoad = Except.ok (some g) →
      load_or_generate_lockfile s = Except.ok g) ∧
    (s.firstLoad = Except.ok none → s.genResult = Except.ok () →
      s.secondLoad = Except.ok none →
      load_or_generate_lockfile s =
        Except.error "Failed to generate lockfile") ∧
    (∀ e, s.firstLoad = Except.ok none → s.genResult = Except.error e →
      load_or_generate_lockfile s = Except.error e) := by
  refine ⟨?_, ?_, ?_, ?_⟩ <;> intros <;> unfold load_or_generate_lockfile <;>
    simp [*]

/-- C9 witness: a store holding an existing lock state returns it directly. -/
theorem C9_lockfile_load_spec_witness :
    load_or_generate_lockfile
      (⟨Except.ok (some 7), Except.ok (), Except.ok none⟩ :
        LockfileStore Nat) = Except.ok 7 :=
  (C9_lockfile_load_spec _).1 7 rfl

/-- C10: when the dependency's entry already exists under `patch.crates-io`
as a standard (non-inline) TOML table, `insert_patch` returns an error
(`as_inline_table_mut` fails on an `Item::Table`) and the entry keeps its
prior value — the `path` field is not set. -/
theorem C10_standard_table_dep_rejected (doc : Doc) (path dep : String)
    (b ci bd : Bool) (pents cents ents : List (String × Item))
    (hp : getKey doc "patch" = some (Item.table b pents))
    (hc : getKey pents "crates-io" = some (Item.table ci cents))
    (hd : getKey cents dep = some (Item.table bd ents)) :
    (insert_patch doc path dep).2 = some "dependency is not an InlineTable" ∧
    docGet (insert_patch doc path dep).1 ["patch", "crates-io", dep] =
      some (Item.table bd ents) := by
  have h1 : patchEnts doc = some pents := by unfold patchEnts; rw [hp]
  have h2 : ciState pents = some (ci, cents) := by unfold ciState; rw [hc]
  have h3 : depEnts cents dep = none := by unfold depEnts; rw [hd]
  rw [insert_patch_eq, h1]
  dsimp only
  rw [insertPatchCratesIo_eq, h2]
  dsimp only
  rw [insertPatchDep_eq, h3]
  dsimp only
  refine ⟨rfl, ?_⟩
  simp [docGet, itemGet, subItem, getKey_setKey_self, hd]

/-- C10 witness: `patch.crates-io.serde` exists as a standard table; the
insertion is rejected and the table is left as it was. -/
theorem C10_standard_table_dep_rejected_witness :
    (insert_patch
      [("patch", Item.table false
        [("crates-io", Item.table false
          [("serde", Item.table false [])])])] "patches/serde" "serde").2 =
      some "dependency is not an InlineTable" ∧
    docGet (insert_patch
      [("patch", Item.table false
        [("crates-io", Item.table false
          [("serde", Item.table false [])])])] "patches/serde" "serde").1
      ["patch", "crates-io", "serde"] = some (Item.table false []) :=
  C10_standard_table_dep_rejected _ _ _ _ _ _ _ _ _ rfl rfl rfl

-- Observer lemmas about the successful write-back, and navigation lemmas
-- used to compare documents before and after a successful `insert_patch`.

theorem patchEnts_result (doc : Doc) (pents : List (String × Item)) (ci : Bool)
    (cents : List (String × Item)) (dents : List (String × Value))
    (path dep : String) :
    patchEnts (insertPatchResult doc pents ci cents dents path dep) =
      some (setKey pents "crates-io" (Item.table ci (setKey cents dep
        (Item.value (Value.inlineTable
          (setKey dents "path" (Value.str path))))))) := by
  unfold patchEnts insertPatchResult
  rw [getKey_setKey_self]

theorem ciState_setKey (pents : List (String × Item)) (ci : Bool)
    (cs : List (String × Item)) :
    ciState (setKey pents "crates-io" (Item.table ci cs)) = some (ci, cs) := by
  unfold ciState
  rw [getKey_setKey_self]

theorem depEnts_setKey (cents : List (String × Item)) (dep : String)
    (ds : List (String × Value)) :
    depEnts (setKey cents dep (Item.value (Value.inlineTable ds))) dep =
      some ds := by
  unfold depEnts
  rw [getKey_setKey_self]

theorem itemGet_single (b : Bool) (es : List (String × Item)) (k : String) :
    itemGet (Item.table b es) [k] = getKey es k := by
  cases h : getKey es k <;> simp [itemGet, subItem, h]

theorem docGet_patch_step (doc : Doc) (pents : List (String × Item))
    (h1 : patchEnts doc = some pents) (k : String) (ks : List String) :
    docGet doc ("patch" :: k :: ks) =
      itemGet (Item.table true pents) (k :: ks) := by
  unfold patchEnts at h1
  cases hp : getKey doc "patch" with
  | none =>
      simp only [hp, Option.some.injEq] at h1
      subst h1
      simp [docGet, itemGet, subItem, hp, getKey]
  | some it =>
      cases it with
      | value v => simp [hp] at h1
      | table b es =>
          simp only [hp, Option.some.injEq] at h1
          subst h1
          simp [docGet, itemGet, subItem, hp]

theorem itemGet_crates_io_step (pents : List (String × Item)) (ci : Bool)
    (cents : List (String × Item)) (h2 : ciState pents = some (ci, cents))
    (k : String) (ks : List String) :
    itemGet (Item.table true pents) ("crates-io" :: k :: ks) =
      itemGet (Item.table true cents) (k :: ks) := by
  unfold ciState at h2
  cases hc : getKey pents "crates-io" with
  | none =>
      simp only [hc, Option.some.injEq, Prod.mk.injEq] at h2
      obtain ⟨h2a, h2b⟩ := h2
      subst h2b
      simp [itemGet, subItem, hc, getKey]
  | some it =>
      cases it with
      | value v => simp [hc] at h2
      | table b es =>
          simp only [hc, Option.some.injEq, Prod.mk.injEq] at h2
          obtain ⟨h2a, h2b⟩ := h2
          subst h2b
          simp [itemGet, subItem, hc]

theorem itemGet_dep_field (cents : List (String × Item)) (dep : String)
    (dents : List (String × Value)) (h3 : depEnts cents dep = some dents)
    (f : String) :
    itemGet (Item.table true cents) [dep, f] =
      (getKey dents f).map Item.value := by
  unfold depEnts at h3
  cases hd : getKey cents dep with
  | none =>
      simp only [hd, Option.some.injEq] at h3
      subst h3
      simp [itemGet, subItem, hd, getKey]
  | some it =>
      cases it with
      | table b es => simp [hd] at h3
      | value v =>
          cases v with
          | str s => simp [hd] at h3
          | inlineTable ds =>
              simp only [hd, Option.some.injEq] at h3
              subst h3
              cases hf : getKey ds f <;>
                simp [itemGet, subItem, hd, hf]

/-- C1 counterexample: `insert_patch` takes no registry input and hardcodes
the sub-table name `"crates-io"` (src/main.rs:88), so for a dependency whose
source registry is any other registry (here `alternative-registry`) the entry
is *not* placed under the sub-table of the registry the dependency was
resolved from: the run succeeds yet the document has no entry under
`patch.alternative-registry`, only under `patch.crates-io`. -/
theorem C1_hardcoded_registry_counterexample :
    (insert_patch [] "patches/libfoo" "libfoo").2 = none ∧
    docGet (insert_patch [] "patches/libfoo" "libfoo").1
      ["patch", "alternative-registry", "libfoo"] = none ∧
    docGet (insert_patch [] "patches/libfoo" "libfoo").1
      ["patch", "crates-io", "libfoo", "path"] =
      some (Item.value (Value.str "patches/libfoo")) :=
  ⟨rfl, rfl, rfl⟩

/-- C1 (amended): on every successful run, `insert_patch` places the patch
entry under the fixed sub-table `patch.crates-io` — regardless of the source
registry the dependency was resolved from — creating the patch table, the
`crates-io` sub-table, and the dependency entry when absent, and the
resulting entry is `patch.crates-io.<dep>.path = <path>`. -/
theorem C1_insert_patch_crates_io (doc : Doc) (path dep : String)
    (doc' : Doc) (h : insert_patch doc path dep = (doc', none)) :
    docGet doc' ["patch", "crates-io", dep, "path"] =
      some (Item.value (Value.str path)) := by
  obtain ⟨pents, ci, cents, dents, h1, h2, h3, rfl⟩ :=
    insert_patch_success_shape doc path dep doc' h
  rw [docGet_patch_step _ _ (patchEnts_result doc pents ci cents dents path dep),
    itemGet_crates_io_step _ ci _ (ciState_setKey pents ci _),
    itemGet_dep_field _ dep _ (depEnts_setKey cents dep _),
    getKey_setKey_self]
  rfl

/-- C1 witness: patching `serde` in an empty manifest creates
`patch.crates-io.serde.path`. -/
theorem C1_insert_patch_crates_io_witness :
    docGet (insert_patch [] "patches/serde" "serde").1
      ["patch", "crates-io", "serde", "path"] =
      some (Item.value (Value.str "patches/serde")) :=
  C1_insert_patch_crates_io [] "patches/serde" "serde" _ rfl

/-- C4: `insert_patch` is idempotent — a second application with the same
dependency name and override location maps the once-patched document to
itself (overwrite-by-key semantics at every traversed level). -/
theorem C4_insert_patch_idempotent (doc : Doc) (path dep : String)
    (doc' : Doc) (h : insert_patch doc path dep = (doc', none)) :
    insert_patch doc' path dep = (doc', none) := by
  obtain ⟨pents, ci, cents, dents, h1, h2, h3, rfl⟩ :=
    insert_patch_success_shape doc path dep doc' h
  rw [insert_patch_eq_of _ path dep _ ci _ _
    (patchEnts_result doc pents ci cents dents path dep)
    (ciState_setKey pents ci _) (depEnts_setKey cents dep _)]
  unfold insertPatchResult
  rw [setKey_setKey, setKey_setKey, setKey_setKey, setKey_setKey]

/-- C4 witness: patching `bar` twice into an initially empty manifest gives
the same document as patching it once. -/
theorem C4_insert_patch_idempotent_witness :
    insert_patch (insert_patch [] "patches/bar" "bar").1 "patches/bar"
      "bar" = ((insert_patch [] "patches/bar" "bar").1, none) :=
  C4_insert_patch_idempotent [] "patches/bar" "bar" _ rfl


/-- C5: a successful `insert_patch` changes nothing but the targeted entry's
`path` field: top-level keys other than `patch`, keys of the patch table
other than `crates-io`, entries of `patch.crates-io` for other dependencies,
and sibling fields of the targeted entry (e.g. a pinned `version` key) all
look up to the same item before and after. -/
theorem C5_insert_patch_frame (doc : Doc) (path dep : String) (doc' : Doc)
    (h : insert_patch doc path dep = (doc', none)) :
    (∀ k, k ≠ "patch" → docGet doc' [k] = docGet doc [k]) ∧
    (∀ k, k ≠ "crates-io" →
      docGet doc' ["patch", k] = docGet doc ["patch", k]) ∧
    (∀ d, d ≠ dep → docGet doc' ["patch", "crates-io", d] =
      docGet doc ["patch", "crates-io", d]) ∧
    (∀ f, f ≠ "path" → docGet doc' ["patch", "crates-io", dep, f] =
      docGet doc ["patch", "crates-io", dep, f]) := by
  obtain ⟨pents, ci, cents, dents, h1, h2, h3, rfl⟩ :=
    insert_patch_success_shape doc path dep doc' h
  refine ⟨?_, ?_, ?_, ?_⟩
  · intro k hk
    unfold docGet
    rw [itemGet_single, itemGet_single]
    unfold insertPatchResult
    exact getKey_setKey_ne doc "patch" k _ (Ne.symm hk)
  · intro k hk
    rw [docGet_patch_step _ _
        (patchEnts_result doc pents ci cents dents path dep),
      docGet_patch_step _ _ h1, itemGet_single, itemGet_single]
    exact getKey_setKey_ne pents "crates-io" k _ (Ne.symm hk)
  · intro d hd
    rw [docGet_patch_step _ _
        (patchEnts_result doc pents ci cents dents path dep),
      itemGet_crates_io_step _ ci _ (ciState_setKey pents ci _),
      docGet_patch_step _ _ h1, itemGet_crates_io_step _ ci _ h2,
      itemGet_single, itemGet_single]
    exact getKey_setKey_ne cents dep d _ (Ne.symm hd)
  · intro f hf
    rw [docGet_patch_step _ _
        (patchEnts_result doc pents ci cents dents path dep),
      itemGet_crates_io_step _ ci _ (ciState_setKey pents ci _),
      itemGet_dep_field _ dep _ (depEnts_setKey cents dep _),
      docGet_patch_step _ _ h1, itemGet_crates_io_step _ ci _ h2,
      itemGet_dep_field _ dep _ h3,
      getKey_setKey_ne dents "path" f _ (Ne.symm hf)]

/-- C5 witness: patching `x` into a manifest with a top-level key `a` and an
existing `patch.crates-io.other-dep` entry leaves the `other-dep` entry
looking up to its prior value. -/
theorem C5_insert_patch_frame_witness :
    docGet ((insert_patch
      [("a", Item.value (Value.str "1")),
       ("patch", Item.table false
         [("crates-io", Item.table false
           [("other-dep", Item.value (Value.inlineTable
             [("path", Value.str "existing")]))])])] "patches/x" "x").1)
      ["patch", "crates-io", "other-dep"] =
    docGet
      [("a", Item.value (Value.str "1")),
       ("patch", Item.table false
         [("crates-io", Item.table false
           [("other-dep", Item.value (Value.inlineTable
             [("path", Value.str "existing")]))])])]
      ["patch", "crates-io", "other-dep"] :=
  (C5_insert_patch_frame _ "patches/x" "x" _ rfl).2.2.1 "other-dep"
    (by decide)

/-- C8 counterexample: patching into an empty manifest newly creates both the
patch table and the `crates-io` sub-table, but only `patch` gets
`set_implicit(true)` (src/main.rs:86); the freshly created `crates-io`
sub-table keeps the `Table::new()` default flag `false`, refuting the claim that every
newly created table along the traversal is marked to render only when
non-empty. -/
theorem C8_crates_io_not_implicit_counterexample :
    (insert_patch [] "patches/baz" "baz").2 = none ∧
    docGet (insert_patch [] "patches/baz" "baz").1 ["patch", "crates-io"] =
      some (Item.table false
        [("baz", Item.value (Value.inlineTable
          [("path", Value.str "patches/baz")]))]) :=
  ⟨rfl, rfl⟩

/-- C8 (amended): on every successful run only the top-level patch table is
marked implicit (render only when non-empty), and that unconditionally; a
`crates-io` sub-table that the run newly created is left unmarked (its
implicit flag is `false`).  No spurious empty section arises all the same,
because the sub-table always receives the dependency entry. -/
theorem C8_implicit_flags (doc : Doc) (path dep : String) (doc' : Doc)
    (h : insert_patch doc path dep = (doc', none)) :
    tableFlag (docGet doc' ["patch"]) = some true ∧
    (docGet doc ["patch", "crates-io"] = none →
      tableFlag (docGet doc' ["patch", "crates-io"]) = some false) := by
  obtain ⟨pents, ci, cents, dents, h1, h2, h3, rfl⟩ :=
    insert_patch_success_shape doc path dep doc' h
  constructor
  · unfold docGet
    rw [itemGet_single]
    unfold insertPatchResult
    rw [getKey_setKey_self]
    rfl
  · intro hnone
    rw [docGet_patch_step _ _ h1, itemGet_single] at hnone
    unfold ciState at h2
    rw [hnone] at h2
    simp only [Option.some.injEq, Prod.mk.injEq] at h2
    obtain ⟨h2a, h2b⟩ := h2
    rw [docGet_patch_step _ _
        (patchEnts_result doc pents ci cents dents path dep),
      itemGet_single, getKey_setKey_self, ← h2a]
    rfl

/-- C8 witness: in an empty manifest, the created patch table is implicit and
the created `crates-io` sub-table is not. -/
theorem C8_implicit_flags_witness :
    tableFlag (docGet (insert_patch [] "patches/qux" "qux").1 ["patch"]) =
      some true ∧
    docGet ([] : Doc) ["patch", "crates-io"] = none ∧
    tableFlag (docGet (insert_patch [] "patches/qux" "qux").1
      ["patch", "crates-io"]) = some false :=
  ⟨(C8_implicit_flags [] "patches/qux" "qux" _ rfl).1, rfl,
    (C8_implicit_flags [] "patches/qux" "qux" _ rfl).2 rfl⟩
